import Mathlib

/-!
Verification of the per-entity forecasting and evaluation pipeline of the
CNS_Prediction repository (src/scr/ARIMA_lib.py and src/scr/xgb_lib.py).

The two Python files are shallowly embedded below:
* the time-series variant (class ARIMAForecaster) works on records carrying an
  entity identifier (column "comune"), a year, and the outcome (column "cns deaths");
* the tabular variant (class XGBoostForecaster) additionally carries the two
  covariate columns "PM2.5" and "PM10" and label-encodes the entity identifier;
* the external model fitters (pmdarima.auto_arima, xgboost) are black boxes:
  they appear as an explicit function argument of type List Rat -> Except String Rat
  (the Except layer models the fact that the external call may raise);
* pandas DataFrame slices become Lean lists; numeric cells become Rat.
-/

namespace CNS

/-- Raw row of one yearly sheet, as consumed by the time-series pipeline:
only the entity identifier (column "comune") and the outcome (column
"cns deaths") are read by ARIMA_lib.py. -/
structure ARow where
  comune : String
  cns : ℚ
deriving DecidableEq

/-- Record of the combined (assembled) dataset of ARIMA_lib.py: a raw row
tagged with the year field added by prepare_data. -/
structure Record where
  comune : String
  year : Int
  cns : ℚ
deriving DecidableEq

/-- Models the Python builtin int() applied to a sheet name in
ARIMA_lib.py line 36 (year=int(sheet_name)): an optionally signed
decimal numeral parses to an integer, anything else raises. -/
def digitsToNat : List Char → Nat → Option Nat
  | [], acc => some acc
  | c :: cs, acc => if c.isDigit then digitsToNat cs (acc * 10 + (c.toNat - 48)) else none

/-- Parse a sheet label as Python int() does for the labels that occur here
(decimal year numerals, optionally negative). -/
def parseYearLabel (s : String) : Option Int :=
  match s.data with
  | [] => none
  | '-' :: cs => if cs = [] then none else (digitsToNat cs 0).map (fun n => -(n : Int))
  | cs => (digitsToNat cs 0).map (fun n => (n : Int))

/-- Embedding of ARIMAForecaster.prepare_data (ARIMA_lib.py lines 29-40):
every sheet's rows are tagged with year = int(sheet_name) and all sheets are
concatenated in order.  An unparseable sheet name raises (ValueError in
Python), modelled as an error result; no column validation is performed. -/
def arimaPrepare : List (String × List ARow) → Except String (List Record)
  | [] => .ok []
  | (label, rows) :: rest =>
    match parseYearLabel label with
    | none => .error "MalformedPartitionLabel"
    | some y => do
      let tail ← arimaPrepare rest
      .ok (rows.map (fun r => ⟨r.comune, y, r.cns⟩) ++ tail)

/-- Embedding of the train half of ARIMAForecaster.split_data (line 49):
all records with year less than or equal to train_year. -/
def splitTrain (d : List Record) (trainYear : Int) : List Record :=
  d.filter (fun r => r.year ≤ trainYear)

/-- Embedding of the test half of ARIMAForecaster.split_data (line 50):
all records whose year equals test_year. -/
def splitTest (d : List Record) (testYear : Int) : List Record :=
  d.filter (fun r => r.year == testYear)

/-- Helper for pandas Series.unique: keep the first occurrence of each value,
in order of appearance; seen accumulates the values already emitted. -/
def uniqueFirstAux (seen : List String) : List String → List String
  | [] => []
  | x :: xs => if x ∈ seen then uniqueFirstAux seen xs else x :: uniqueFirstAux (x :: seen) xs

/-- Embedding of pandas Series.unique as used on combined_data["comune"]
(ARIMA_lib.py lines 82 and 121): distinct values in order of first
appearance. -/
def uniqueFirst (l : List String) : List String := uniqueFirstAux [] l

/-- Embedding of the per-entity loop body of ARIMAForecaster.train_and_evaluate
(lines 82-90), iterating over an explicit list of entity identifiers.  For
each comune the train and test slices are taken; when both are non-empty the
external fitter is called on the training outcome series (predict_arima
passes city_train_data["cns deaths"] in row order, lines 52-74) and the
triple (comune, prediction, first test outcome) is recorded.  There is no
try/except in the Python loop: an exception of the fitter propagates,
which the Except bind reproduces. -/
def evalLoop (fit : List ℚ → Except String ℚ) (train test : List Record) :
    List String → Except String (List (String × ℚ × ℚ))
  | [] => .ok []
  | c :: cs =>
    let tr := train.filter (fun r => r.comune == c)
    let te := test.filter (fun r => r.comune == c)
    if h : tr ≠ [] ∧ te ≠ [] then do
      let p ← fit (tr.map (fun r => r.cns))
      let rest ← evalLoop fit train test cs
      .ok ((c, p, (te.head h.2).cns) :: rest)
    else evalLoop fit train test cs

/-- Embedding of ARIMAForecaster.train_and_evaluate (lines 76-95): run the
per-entity loop over the distinct comuni of the combined dataset. -/
def trainAndEvaluate (fit : List ℚ → Except String ℚ) (combined train test : List Record) :
    Except String (List (String × ℚ × ℚ)) :=
  evalLoop fit train test (uniqueFirst (combined.map (fun r => r.comune)))

/-- Embedding of the loop of ARIMAForecaster.predict_upcoming_year (lines
121-126): for each distinct comune the full slice of the combined dataset
(all years) is used as training data; when it is non-empty the fitter is
called and (comune, prediction) recorded. -/
def upcomingLoop (fit : List ℚ → Except String ℚ) (combined : List Record) :
    List String → Except String (List (String × ℚ))
  | [] => .ok []
  | c :: cs =>
    let tr := combined.filter (fun r => r.comune == c)
    if tr ≠ [] then do
      let p ← fit (tr.map (fun r => r.cns))
      let rest ← upcomingLoop fit combined cs
      .ok ((c, p) :: rest)
    else upcomingLoop fit combined cs

/-- Embedding of ARIMAForecaster.predict_upcoming_year (lines 113-128).  The
filter on the year argument (line 119, upcoming_year_data) is computed and
then never used, exactly as in the source. -/
def predictUpcomingYear (fit : List ℚ → Except String ℚ) (combined : List Record) (year : Int) :
    Except String (List (String × ℚ)) :=
  let _ := combined.filter (fun r => r.year == year)
  upcomingLoop fit combined (uniqueFirst (combined.map (fun r => r.comune)))

/-- Raw row of one sheet as consumed by the tabular pipeline (xgb_lib.py):
entity identifier and the columns PM2.5, PM10, cns deaths. -/
structure XRow where
  comune : String
  pm25 : ℚ
  pm10 : ℚ
  cns : ℚ
deriving DecidableEq

/-- Record of the assembled dataset of xgb_lib.py after prepare_data:
the derived year field plus the selected columns. -/
structure XRecord where
  year : Nat
  comune : String
  pm25 : ℚ
  pm10 : ℚ
  cns : ℚ
deriving DecidableEq

/-- Tag each row with year = (global row position) / 107, the positional
convention of xgb_lib.py line 37 (data["year"] = data.index // 107 after a
concat with ignore_index=True). -/
def tagRows : Nat → List XRow → List XRecord
  | _, [] => []
  | i, r :: rs => ⟨i / 107, r.comune, r.pm25, r.pm10, r.cns⟩ :: tagRows (i + 1) rs

/-- Embedding of XGBoostForecaster.prepare_data (xgb_lib.py lines 32-39):
all sheets are concatenated in order with a fresh 0-based index (sheet names
are never read: sheets_dict.values()), the year column is derived from the
row index by integer division with 107, and the fixed column selection is
reflected in the XRecord fields. -/
def xgbPrepare (sheets : List (String × List XRow)) : List XRecord :=
  tagRows 0 (sheets.map Prod.snd).flatten

/-- Embedding of sklearn LabelEncoder.fit as used in xgb_lib.py line 30:
the classes are the sorted distinct values of the fitted column. -/
def leFit (vals : List String) : List String :=
  (uniqueFirst vals).insertionSort (· ≤ ·)

/-- Embedding of sklearn LabelEncoder.transform on one value: the position
of the value in the fitted class list, none when the value is unseen
(sklearn raises in that case). -/
def leTransform (classes : List String) (v : String) : Option Nat :=
  match classes with
  | [] => none
  | c :: cs => if c == v then some 0 else (leTransform cs v).map (· + 1)

/-- Record of the tabular dataset after the comune column has been replaced
by its integer code (xgb_lib.py line 30). -/
structure XRecordE where
  year : Nat
  comuneCode : Nat
  pm25 : ℚ
  pm10 : ℚ
  cns : ℚ
deriving DecidableEq

/-- Embedding of self.data["comune"] = self.le.fit_transform(self.data["comune"])
(xgb_lib.py lines 29-30): fit the encoder on the full comune column of the
assembled dataset, then replace each comune by its code. -/
def xgbEncode (data : List XRecord) : List XRecordE :=
  let classes := leFit (data.map (fun r => r.comune))
  data.map (fun r => ⟨r.year, (leTransform classes r.comune).getD 0, r.pm25, r.pm10, r.cns⟩)

/-- Embedding of the train half of XGBoostForecaster.split_data (line 45):
records with year strictly below the hard-coded boundary 10. -/
def xgbSplitTrain (d : List XRecordE) : List XRecordE := d.filter (fun r => r.year < 10)

/-- Embedding of the test half of XGBoostForecaster.split_data (line 46):
records whose year equals the hard-coded boundary 10. -/
def xgbSplitTest (d : List XRecordE) : List XRecordE := d.filter (fun r => r.year == 10)

/-- Schema view of one sheet of the workbook: its column names and row
count.  Used to settle the schema-validation claim, for which only column
presence matters. -/
structure UTable where
  cols : List String
  nrows : Nat
deriving DecidableEq

/-- Schema-level view of ARIMAForecaster.prepare_data: df.assign adds the
year column to every sheet and pd.concat takes the union of the column sets
(rows of a sheet lacking a column receive missing values); no required
column is ever checked, so the only failure is an unparseable sheet name. -/
def arimaAssembleSchema (sheets : List (String × UTable)) : Except String UTable :=
  if sheets.all (fun s => (parseYearLabel s.1).isSome) then
    .ok ⟨uniqueFirst ((sheets.map (fun s => s.2.cols ++ ["year"])).flatten),
         (sheets.map (fun s => s.2.nrows)).sum⟩
  else .error "MalformedPartitionLabel"

/-- Required columns selected by xgb_lib.py line 38 besides the freshly
assigned year column. -/
def xgbRequired : List String := ["comune", "PM2.5", "PM10", "cns deaths"]

/-- Column set of pd.concat over the sheets: the union of the sheets'
columns in order of first appearance (rows of a sheet lacking one of them
receive missing values). -/
def concatCols (sheets : List UTable) : List String :=
  uniqueFirst ((sheets.map (fun s => s.cols)).flatten)

/-- Columns after data["year"] = data.index // 107: the year column is
present whether or not some sheet already had it. -/
def withYearCols (sheets : List UTable) : List String :=
  if "year" ∈ concatCols sheets then concatCols sheets else concatCols sheets ++ ["year"]

/-- Schema-level view of XGBoostForecaster.prepare_data: pd.concat takes the
union of the column sets, the year column is then assigned (so it is always
present), and the selection data[["year","comune","PM2.5","PM10","cns deaths"]]
raises KeyError exactly when a required column is absent from the union,
that is, absent from every sheet. -/
def xgbAssembleSchema (sheets : List UTable) : Except String UTable :=
  if xgbRequired.all (fun c => c ∈ withYearCols sheets) then
    .ok ⟨"year" :: xgbRequired, (sheets.map (fun s => s.nrows)).sum⟩
  else .error "KeyError"

/-- Arithmetic mean, as used throughout sklearn.metrics. -/
def listMean (l : List ℚ) : ℚ := l.sum / l.length

/-- Pointwise squared errors of a pair of parallel sequences. -/
def squaredErrors (yTrue yPred : List ℚ) : List ℚ :=
  (yTrue.zip yPred).map (fun p => (p.1 - p.2) ^ 2)

/-- Embedding of sklearn.metrics.mean_squared_error. -/
def mean_squared_error (yTrue yPred : List ℚ) : ℚ := listMean (squaredErrors yTrue yPred)

/-- Pointwise absolute errors of a pair of parallel sequences. -/
def absErrors (yTrue yPred : List ℚ) : List ℚ :=
  (yTrue.zip yPred).map (fun p => |p.1 - p.2|)

/-- Embedding of sklearn.metrics.mean_absolute_error. -/
def mean_absolute_error (yTrue yPred : List ℚ) : ℚ := listMean (absErrors yTrue yPred)

/-- Median in the sense of numpy.median: middle element of the sorted list
for odd length, mean of the two middle elements for even length. -/
def listMedian (l : List ℚ) : ℚ :=
  if l.length % 2 = 1 then (l.insertionSort (· ≤ ·)).getD (l.length / 2) 0
  else ((l.insertionSort (· ≤ ·)).getD (l.length / 2 - 1) 0 +
    (l.insertionSort (· ≤ ·)).getD (l.length / 2) 0) / 2

/-- Embedding of sklearn.metrics.median_absolute_error. -/
def median_absolute_error (yTrue yPred : List ℚ) : ℚ := listMedian (absErrors yTrue yPred)

/-- Embedding of sklearn.metrics.r2_score, with sklearn's conventions for a
zero denominator: perfect predictions of a constant series score 1,
imperfect ones score 0. -/
def r2_score (yTrue yPred : List ℚ) : ℚ :=
  if (yTrue.map (fun a => (a - listMean yTrue) ^ 2)).sum = 0 then
    (if (squaredErrors yTrue yPred).sum = 0 then 1 else 0)
  else 1 - (squaredErrors yTrue yPred).sum / (yTrue.map (fun a => (a - listMean yTrue) ^ 2)).sum

/-- Population variance, as used by sklearn.metrics.explained_variance_score. -/
def listVariance (l : List ℚ) : ℚ := listMean (l.map (fun a => (a - listMean l) ^ 2))

/-- Pointwise residuals of a pair of parallel sequences. -/
def residuals (yTrue yPred : List ℚ) : List ℚ := (yTrue.zip yPred).map (fun p => p.1 - p.2)

/-- Embedding of sklearn.metrics.explained_variance_score, with sklearn's
conventions for a zero denominator, as for r2_score. -/
def explained_variance_score (yTrue yPred : List ℚ) : ℚ :=
  if listVariance yTrue = 0 then (if listVariance (residuals yTrue yPred) = 0 then 1 else 0)
  else 1 - listVariance (residuals yTrue yPred) / listVariance yTrue

/-- Dataset for the failure-propagation counterexample: comune A has one
training record, comune B has two, and both comuni have a 2019 test
record. -/
def cexData : List Record :=
  [⟨"A", 2018, 1⟩, ⟨"B", 2017, 2⟩, ⟨"B", 2018, 3⟩, ⟨"A", 2019, 10⟩, ⟨"B", 2019, 20⟩]

/-- Fitter that raises on a series of length at most one and succeeds
otherwise, standing for an auto_arima call that fails on a degenerate
series. -/
def cexFit : List ℚ → Except String ℚ :=
  fun s => if s.length ≤ 1 then .error "ModelFitFailure" else .ok 5

/-- Workbook for the schema counterexample: the sheet labelled 2019 lacks
the comune column, yet neither assembler fails on it. -/
def cexSheets : List (String × UTable) :=
  [("2018", ⟨["comune", "PM2.5", "PM10", "cns deaths"], 107⟩),
   ("2019", ⟨["PM2.5", "PM10", "cns deaths"], 107⟩)]

/-- Rows of one source sheet all tagged with the same year k, the shape the
per-partition provenance claim asks of the tabular assembler. -/
def blockTag (k : Nat) (rows : List XRow) : List XRecord :=
  rows.map (fun r => ⟨k, r.comune, r.pm25, r.pm10, r.cns⟩)

/-- All sheets tagged with consecutive ordinals starting at k: the year a
record would carry if the year field really identified its source
partition. -/
def blocksFrom (k : Nat) : List (List XRow) → List XRecord
  | [] => []
  | rows :: rest => blockTag k rows ++ blocksFrom (k + 1) rest

theorem mem_uniqueFirstAux : ∀ (l seen : List String) (x : String),
    x ∈ uniqueFirstAux seen l ↔ x ∈ l ∧ x ∉ seen := by
  intro l
  induction l with
  | nil => intro seen x; simp [uniqueFirstAux]
  | cons y ys ih =>
    intro seen x
    simp only [uniqueFirstAux]
    by_cases hy : y ∈ seen
    · rw [if_pos hy, ih]
      constructor
      · rintro ⟨hx, hns⟩; exact ⟨List.mem_cons_of_mem _ hx, hns⟩
      · rintro ⟨hx, hns⟩
        rcases List.mem_cons.1 hx with rfl | hx
        · exact absurd hy hns
        · exact ⟨hx, hns⟩
    · rw [if_neg hy]
      simp only [List.mem_cons, ih]
      constructor
      · rintro (rfl | ⟨hx, hns⟩)
        · exact ⟨Or.inl rfl, hy⟩
        · exact ⟨Or.inr hx, fun hc => hns (Or.inr hc)⟩
      · rintro ⟨rfl | hx, hns⟩
        · exact Or.inl rfl
        · by_cases hxy : x = y
          · exact Or.inl hxy
          · exact Or.inr ⟨hx, by simp [List.mem_cons, hxy, hns]⟩

theorem mem_uniqueFirst {x : String} {l : List String} : x ∈ uniqueFirst l ↔ x ∈ l := by
  simp [uniqueFirst, mem_uniqueFirstAux]

theorem nodup_uniqueFirstAux : ∀ (l seen : List String), (uniqueFirstAux seen l).Nodup := by
  intro l
  induction l with
  | nil => intro seen; simp [uniqueFirstAux]
  | cons y ys ih =>
    intro seen
    simp only [uniqueFirstAux]
    by_cases hy : y ∈ seen
    · rw [if_pos hy]; exact ih seen
    · rw [if_neg hy]
      refine List.nodup_cons.2 ⟨fun hc => ?_, ih _⟩
      exact ((mem_uniqueFirstAux ys (y :: seen) y).1 hc).2 (List.mem_cons_self y seen)

theorem nodup_uniqueFirst (l : List String) : (uniqueFirst l).Nodup := nodup_uniqueFirstAux l []

/-- Claim C1 is false as stated: the time-series partitioner is not disjoint
by (entity, year) when test_year is at most train_cutoff_year.  With
train_cutoff_year = test_year = 2018 the record ("A", 2018) is returned in
both the TrainSet and the TestSet. -/
theorem c1_counterexample :
    (⟨"A", 2018, 1⟩ : Record) ∈ splitTrain [⟨"A", 2018, 1⟩] 2018 ∧
    (⟨"A", 2018, 1⟩ : Record) ∈ splitTest [⟨"A", 2018, 1⟩] 2018 := by
  decide

/-- C1 amended: the TrainSet and TestSet of the time-series partitioner share
no (entity, year) pair whenever train_cutoff_year < test_year, and the
tabular partitioner (year < 10 versus year == 10) is always disjoint. -/
theorem c1_amended :
    (∀ (d : List Record) (cutoff ty : Int), cutoff < ty →
      ∀ r ∈ splitTrain d cutoff, ∀ s ∈ splitTest d ty,
        (r.comune, r.year) ≠ (s.comune, s.year)) ∧
    (∀ (d : List XRecordE), ∀ r ∈ xgbSplitTrain d, ∀ s ∈ xgbSplitTest d,
      (r.comuneCode, r.year) ≠ (s.comuneCode, s.year)) := by
  constructor
  · intro d cutoff ty hlt r hr s hs heq
    have h1 : r.year ≤ cutoff := by
      have := List.mem_filter.1 hr
      simpa using this.2
    have h2 : s.year = ty := by
      have := List.mem_filter.1 hs
      simpa using this.2
    have h3 : r.year = s.year := congrArg Prod.snd heq
    omega
  · intro d r hr s hs heq
    have h1 : r.year < 10 := by
      have := List.mem_filter.1 hr
      simpa using this.2
    have h2 : s.year = 10 := by
      have := List.mem_filter.1 hs
      simpa using this.2
    have h3 : r.year = s.year := congrArg Prod.snd heq
    omega

/-- Witness for c1_amended at a concrete dataset and cutoff/test-year pair. -/
theorem c1_amended_witness :
    (2017 : Int) < 2019 ∧
    (⟨"A", 2017, 1⟩ : Record) ∈ splitTrain [⟨"A", 2017, 1⟩, ⟨"A", 2019, 2⟩] 2017 ∧
    (⟨"A", 2019, 2⟩ : Record) ∈ splitTest [⟨"A", 2017, 1⟩, ⟨"A", 2019, 2⟩] 2019 ∧
    ((⟨"A", 2017, 1⟩ : Record).comune, (⟨"A", 2017, 1⟩ : Record).year) ≠
      ((⟨"A", 2019, 2⟩ : Record).comune, (⟨"A", 2019, 2⟩ : Record).year) :=
  ⟨by decide, by decide, by decide,
    c1_amended.1 [⟨"A", 2017, 1⟩, ⟨"A", 2019, 2⟩] 2017 2019 (by decide)
      _ (by decide) _ (by decide)⟩

/-- C4: the time-series split returns as TrainSet exactly the records with
year at most train_cutoff_year and as TestSet exactly the records with year
equal to test_year; the tabular split likewise returns exactly the records
with year below, respectively equal to, the boundary 10.  No record
satisfying a filter is dropped and none violating it is included. -/
theorem c4_split_exact :
    ∀ (d : List Record) (cutoff ty : Int) (r : Record) (dx : List XRecordE) (x : XRecordE),
      (r ∈ splitTrain d cutoff ↔ r ∈ d ∧ r.year ≤ cutoff) ∧
      (r ∈ splitTest d ty ↔ r ∈ d ∧ r.year = ty) ∧
      (x ∈ xgbSplitTrain dx ↔ x ∈ dx ∧ x.year < 10) ∧
      (x ∈ xgbSplitTest dx ↔ x ∈ dx ∧ x.year = 10) := by
  intro d cutoff ty r dx x
  refine ⟨?_, ?_, ?_, ?_⟩
  · simp [splitTrain, List.mem_filter]
  · simp [splitTest, List.mem_filter]
  · simp [xgbSplitTrain, List.mem_filter]
  · simp [xgbSplitTest, List.mem_filter]

theorem evalLoop_cons (fit : List ℚ → Except String ℚ) (train test : List Record)
    (c₀ : String) (cs : List String) :
    evalLoop fit train test (c₀ :: cs) =
      if h : train.filter (fun r => r.comune == c₀) ≠ [] ∧
          test.filter (fun r => r.comune == c₀) ≠ [] then do
        let p ← fit ((train.filter (fun r => r.comune == c₀)).map (fun r => r.cns))
        let rest ← evalLoop fit train test cs
        .ok ((c₀, p, ((test.filter (fun r => r.comune == c₀)).head h.2).cns) :: rest)
      else evalLoop fit train test cs := rfl

theorem evalLoop_mem_iff (fit : List ℚ → Except String ℚ) (train test : List Record) :
    ∀ (cs : List String) (preds : List (String × ℚ × ℚ)),
      evalLoop fit train test cs = .ok preds →
      ∀ c : String,
        (∃ p t, (c, p, t) ∈ preds) ↔
          (c ∈ cs ∧ train.filter (fun r => r.comune == c) ≠ [] ∧
            test.filter (fun r => r.comune == c) ≠ []) := by
  intro cs
  induction cs with
  | nil =>
    intro preds h c
    have h2 : Except.ok ([] : List (String × ℚ × ℚ)) = Except.ok preds := h
    injection h2 with h3
    subst h3
    simp
  | cons c₀ cs ih =>
    intro preds h c
    rw [evalLoop_cons] at h
    by_cases hel : train.filter (fun r => r.comune == c₀) ≠ [] ∧
        test.filter (fun r => r.comune == c₀) ≠ []
    · rw [dif_pos hel] at h
      cases hf : fit ((train.filter (fun r => r.comune == c₀)).map (fun r => r.cns)) with
      | error e =>
        rw [hf] at h
        exact Except.noConfusion (show Except.error e = Except.ok preds from h)
      | ok p =>
        rw [hf] at h
        cases hrest : evalLoop fit train test cs with
        | error e =>
          rw [hrest] at h
          exact Except.noConfusion (show Except.error e = Except.ok preds from h)
        | ok rest =>
          rw [hrest] at h
          have h2 : Except.ok
              ((c₀, p, ((test.filter (fun r => r.comune == c₀)).head hel.2).cns) :: rest) =
              Except.ok preds := h
          injection h2 with h3
          subst h3
          have ihc := ih rest hrest c
          by_cases hc : c = c₀
          · subst hc
            refine iff_of_true ⟨p, _, List.mem_cons_self _ _⟩
              ⟨List.mem_cons_self _ _, hel.1, hel.2⟩
          · constructor
            · rintro ⟨q, t, hmem⟩
              rcases List.mem_cons.1 hmem with heq | hmem'
              · exact absurd (congrArg Prod.fst heq) hc
              · have hr := ihc.1 ⟨q, t, hmem'⟩
                exact ⟨List.mem_cons_of_mem _ hr.1, hr.2⟩
            · rintro ⟨hcs, htr, hte⟩
              rcases List.mem_cons.1 hcs with rfl | hcs'
              · exact absurd rfl hc
              · obtain ⟨q, t, hm⟩ := ihc.2 ⟨hcs', htr, hte⟩
                exact ⟨q, t, List.mem_cons_of_mem _ hm⟩
    · rw [dif_neg hel] at h
      have ihc := ih preds h c
      constructor
      · intro hex
        have hr := ihc.1 hex
        exact ⟨List.mem_cons_of_mem _ hr.1, hr.2⟩
      · rintro ⟨hcs, htr, hte⟩
        rcases List.mem_cons.1 hcs with rfl | hcs'
        · exact absurd ⟨htr, hte⟩ hel
        · exact ihc.2 ⟨hcs', htr, hte⟩

/-- C5: an entity appears in the prediction list of train_and_evaluate
exactly when its training slice and its test slice are both non-empty, and
entities failing this are skipped without failing the run. -/
theorem c5_entity_inclusion :
    ∀ (fit : List ℚ → Except String ℚ) (combined : List Record) (cutoff ty : Int)
      (preds : List (String × ℚ × ℚ)),
      trainAndEvaluate fit combined (splitTrain combined cutoff) (splitTest combined ty) =
        .ok preds →
      ∀ c : String,
        (∃ p t, (c, p, t) ∈ preds) ↔
          ((splitTrain combined cutoff).filter (fun r => r.comune == c) ≠ [] ∧
            (splitTest combined ty).filter (fun r => r.comune == c) ≠ []) := by
  intro fit combined cutoff ty preds h c
  simp only [trainAndEvaluate] at h
  rw [evalLoop_mem_iff fit _ _ _ preds h c]
  constructor
  · rintro ⟨_, htr, hte⟩
    exact ⟨htr, hte⟩
  · rintro ⟨htr, hte⟩
    refine ⟨?_, htr, hte⟩
    rw [mem_uniqueFirst]
    obtain ⟨r, hr⟩ := List.exists_mem_of_ne_nil _ htr
    have hrc := List.mem_filter.1 hr
    have hrd : r ∈ combined := (List.mem_filter.1 hrc.1).1
    have hcc : r.comune = c := by simpa using hrc.2
    exact hcc ▸ List.mem_map_of_mem (fun r => r.comune) hrd

/-- Witness for c5_entity_inclusion on a two-record dataset. -/
theorem c5_entity_inclusion_witness :
    trainAndEvaluate (fun _ => Except.ok 0) [⟨"A", 2018, 1⟩, ⟨"A", 2019, 2⟩]
        (splitTrain [⟨"A", 2018, 1⟩, ⟨"A", 2019, 2⟩] 2018)
        (splitTest [⟨"A", 2018, 1⟩, ⟨"A", 2019, 2⟩] 2019) = .ok [("A", 0, 2)] ∧
    (∃ p t, (("A" : String), p, t) ∈ ([("A", 0, 2)] : List (String × ℚ × ℚ))) :=
  ⟨rfl, (c5_entity_inclusion (fun _ => Except.ok 0) [⟨"A", 2018, 1⟩, ⟨"A", 2019, 2⟩]
      2018 2019 [("A", 0, 2)] rfl "A").2 ⟨by decide, by decide⟩⟩

/-- Claim C2 is false as stated: train_and_evaluate has no exception
handling, so when the fitter raises for comune A the whole run aborts with
that exception and no prediction list is produced, even though comune B is
eligible and its own fit would have succeeded. -/
theorem c2_counterexample :
    trainAndEvaluate cexFit cexData (splitTrain cexData 2018) (splitTest cexData 2019) =
      .error "ModelFitFailure" ∧
    (trainAndEvaluate cexFit cexData (splitTrain cexData 2018)
      (splitTest cexData 2019)).toOption = none ∧
    cexFit (((splitTrain cexData 2018).filter (fun r => r.comune == "B")).map (fun r => r.cns))
      = .ok 5 :=
  ⟨rfl, rfl, rfl⟩

theorem evalLoop_error_of_fit_error (fit : List ℚ → Except String ℚ)
    (train test : List Record) :
    ∀ (cs : List String) (c : String), c ∈ cs →
      train.filter (fun r => r.comune == c) ≠ [] →
      test.filter (fun r => r.comune == c) ≠ [] →
      (∀ v, fit ((train.filter (fun r => r.comune == c)).map (fun r => r.cns)) ≠ .ok v) →
      ∃ msg, evalLoop fit train test cs = .error msg := by
  intro cs
  induction cs with
  | nil =>
    intro c hc
    exact absurd hc (List.not_mem_nil c)
  | cons c₀ cs ih =>
    intro c hc htr hte hfit
    rw [evalLoop_cons]
    by_cases hel : train.filter (fun r => r.comune == c₀) ≠ [] ∧
        test.filter (fun r => r.comune == c₀) ≠ []
    · rw [dif_pos hel]
      cases hf : fit ((train.filter (fun r => r.comune == c₀)).map (fun r => r.cns)) with
      | error e => exact ⟨e, rfl⟩
      | ok p =>
        have hcc : c ≠ c₀ := fun he => hfit p (by rw [he]; exact hf)
        have hc' : c ∈ cs := by
          rcases List.mem_cons.1 hc with rfl | hmem
          · exact absurd rfl hcc
          · exact hmem
        obtain ⟨msg, hm⟩ := ih c hc' htr hte hfit
        refine ⟨msg, ?_⟩
        rw [hm]
        rfl
    · rw [dif_neg hel]
      have hcc : c ≠ c₀ := fun he => hel (by rw [← he]; exact ⟨htr, hte⟩)
      have hc' : c ∈ cs := by
        rcases List.mem_cons.1 hc with rfl | hmem
        · exact absurd rfl hcc
        · exact hmem
      exact ih c hc' htr hte hfit

/-- C2 amended: a fit exception for an eligible entity is not caught: it
propagates out of train_and_evaluate, the whole run fails and no prediction
list at all is produced. -/
theorem c2_amended :
    ∀ (fit : List ℚ → Except String ℚ) (combined train test : List Record) (c : String),
      c ∈ uniqueFirst (combined.map (fun r => r.comune)) →
      train.filter (fun r => r.comune == c) ≠ [] →
      test.filter (fun r => r.comune == c) ≠ [] →
      (∀ v, fit ((train.filter (fun r => r.comune == c)).map (fun r => r.cns)) ≠ .ok v) →
      ∃ msg, trainAndEvaluate fit combined train test = .error msg := by
  intro fit combined train test c hc htr hte hfit
  simp only [trainAndEvaluate]
  exact evalLoop_error_of_fit_error fit train test _ c hc htr hte hfit

/-- Witness for c2_amended at the concrete failing dataset and fitter. -/
theorem c2_amended_witness :
    ("A" ∈ uniqueFirst (cexData.map (fun r => r.comune))) ∧
    (∃ msg, trainAndEvaluate cexFit cexData (splitTrain cexData 2018)
      (splitTest cexData 2019) = .error msg) :=
  ⟨by decide,
    c2_amended cexFit cexData (splitTrain cexData 2018) (splitTest cexData 2019) "A"
      (by decide) (by decide) (by decide)
      (fun v h => by
        rw [show cexFit (((splitTrain cexData 2018).filter
            (fun r => r.comune == "A")).map (fun r => r.cns)) =
          .error "ModelFitFailure" from rfl] at h
        exact Except.noConfusion h)⟩

theorem upcomingLoop_cons (fit : List ℚ → Except String ℚ) (combined : List Record)
    (c₀ : String) (cs : List String) :
    upcomingLoop fit combined (c₀ :: cs) =
      if combined.filter (fun r => r.comune == c₀) ≠ [] then do
        let p ← fit ((combined.filter (fun r => r.comune == c₀)).map (fun r => r.cns))
        let rest ← upcomingLoop fit combined cs
        .ok ((c₀, p) :: rest)
      else upcomingLoop fit combined cs := rfl

theorem upcomingLoop_ok (g : List ℚ → ℚ) (combined : List Record) :
    ∀ cs : List String, (∀ c ∈ cs, ∃ r ∈ combined, r.comune = c) →
      upcomingLoop (fun s => .ok (g s)) combined cs =
        .ok (cs.map (fun c =>
          (c, g ((combined.filter (fun r => r.comune == c)).map (fun r => r.cns))))) := by
  intro cs
  induction cs with
  | nil => intro _; rfl
  | cons c₀ cs ih =>
    intro hall
    rw [upcomingLoop_cons]
    have hne : combined.filter (fun r => r.comune == c₀) ≠ [] := by
      obtain ⟨r, hr, hrc⟩ := hall c₀ (List.mem_cons_self _ _)
      intro hnil
      have hmem : r ∈ combined.filter (fun r => r.comune == c₀) :=
        List.mem_filter.2 ⟨hr, by simp [hrc]⟩
      rw [hnil] at hmem
      exact List.not_mem_nil r hmem
    rw [if_pos hne, ih (fun c hc => hall c (List.mem_cons_of_mem _ hc))]
    rfl

/-- C10: predict_upcoming_year ignores its year argument (the filtered
upcoming_year_data is dead), fits every entity on that entity's full slice
of the combined dataset across all years, and appends exactly one
prediction per distinct entity, every entity with at least one record
included. -/
theorem c10_upcoming_year :
    (∀ (fit : List ℚ → Except String ℚ) (combined : List Record) (y₁ y₂ : Int),
      predictUpcomingYear fit combined y₁ = predictUpcomingYear fit combined y₂) ∧
    (∀ (g : List ℚ → ℚ) (combined : List Record) (y : Int),
      predictUpcomingYear (fun s => .ok (g s)) combined y =
        .ok ((uniqueFirst (combined.map (fun r => r.comune))).map
          (fun c => (c, g ((combined.filter (fun r => r.comune == c)).map
            (fun r => r.cns)))))) ∧
    (∀ (combined : List Record) (c : String),
      (c ∈ uniqueFirst (combined.map (fun r => r.comune)) ↔ ∃ r ∈ combined, r.comune = c) ∧
      (uniqueFirst (combined.map (fun r => r.comune))).Nodup) := by
  refine ⟨fun fit combined y₁ y₂ => rfl, ?_, ?_⟩
  · intro g combined y
    simp only [predictUpcomingYear]
    refine upcomingLoop_ok g combined _ (fun c hc => ?_)
    rw [mem_uniqueFirst] at hc
    obtain ⟨r, hr, hrc⟩ := List.mem_map.1 hc
    exact ⟨r, hr, hrc⟩
  · intro combined c
    refine ⟨?_, nodup_uniqueFirst _⟩
    rw [mem_uniqueFirst]
    simp [List.mem_map]

/-- Claim C3 is false as stated: a workbook whose 2019 sheet lacks the
comune column is assembled without any failure by both variants (pd.concat
unions the columns, filling the gap with missing values), so no
SchemaMismatch aborts the run. -/
theorem c3_counterexample :
    arimaAssembleSchema cexSheets =
      .ok ⟨["comune", "PM2.5", "PM10", "cns deaths", "year"], 214⟩ ∧
    xgbAssembleSchema (cexSheets.map Prod.snd) = .ok ⟨"year" :: xgbRequired, 214⟩ ∧
    "comune" ∉ (⟨["PM2.5", "PM10", "cns deaths"], 107⟩ : UTable).cols :=
  ⟨rfl, rfl, by decide⟩

theorem mem_concatCols (sheets : List UTable) (c : String) :
    c ∈ concatCols sheets ↔ ∃ s ∈ sheets, c ∈ s.cols := by
  simp [concatCols, mem_uniqueFirst, List.mem_flatten, List.mem_map]

theorem mem_withYearCols (sheets : List UTable) (c : String) :
    c ∈ withYearCols sheets ↔ (c ∈ concatCols sheets ∨ c = "year") := by
  simp only [withYearCols]
  split
  · rename_i hy
    constructor
    · exact Or.inl
    · rintro (h | rfl)
      · exact h
      · exact hy
  · simp [List.mem_append]

/-- C3 amended: the dataset assemblers perform no per-partition schema
validation.  The time-series assembler can only fail on an unparseable
sheet label, never on a missing column; the tabular assembler fails exactly
when some required column is absent from every partition (a column missing
from only some partitions is silently filled with missing values). -/
theorem c3_amended :
    (∀ sheets : List (String × UTable),
      (∀ s ∈ sheets, (parseYearLabel s.1).isSome) →
      ∃ t, arimaAssembleSchema sheets = .ok t) ∧
    (∀ sheets : List UTable,
      (∃ msg, xgbAssembleSchema sheets = .error msg) ↔
        ∃ c ∈ xgbRequired, ∀ s ∈ sheets, c ∉ s.cols) := by
  constructor
  · intro sheets hall
    have hcond : (sheets.all (fun s => (parseYearLabel s.1).isSome)) = true :=
      List.all_eq_true.2 hall
    exact ⟨_, by simp only [arimaAssembleSchema]; rw [if_pos hcond]⟩
  · intro sheets
    constructor
    · rintro ⟨msg, hmsg⟩
      simp only [xgbAssembleSchema] at hmsg
      split at hmsg
      · exact Except.noConfusion hmsg
      · rename_i hall
        rw [List.all_eq_true] at hall
        push_neg at hall
        obtain ⟨c, hc, hnc⟩ := hall
        refine ⟨c, hc, fun s hs hcs => ?_⟩
        apply hnc
        simp only [decide_eq_true_eq]
        exact (mem_withYearCols sheets c).2 (Or.inl ((mem_concatCols sheets c).2 ⟨s, hs, hcs⟩))
    · rintro ⟨c, hc, hnone⟩
      have hcy : c ≠ "year" := by
        intro hcy
        subst hcy
        revert hc
        decide
      have hnall : ¬ ((xgbRequired.all (fun c => c ∈ withYearCols sheets)) = true) := by
        intro hall
        have hcw := List.all_eq_true.1 hall c hc
        rw [decide_eq_true_eq] at hcw
        rcases (mem_withYearCols sheets c).1 hcw with hmem | h
        · obtain ⟨s, hs, hcs⟩ := (mem_concatCols sheets c).1 hmem
          exact hnone s hs hcs
        · exact hcy h
      exact ⟨"KeyError", by simp only [xgbAssembleSchema]; rw [if_neg hnall]⟩

/-- Witness for c3_amended at the concrete workbook with a missing column. -/
theorem c3_amended_witness :
    ((parseYearLabel "2018").isSome ∧ (parseYearLabel "2019").isSome) ∧
    (∃ t, arimaAssembleSchema cexSheets = .ok t) :=
  ⟨by decide, c3_amended.1 cexSheets (by decide)⟩

/-- Claim C6 is false for the tabular assembler: a single sheet labelled
2018 with one row yields a record whose derived year is 0, not the year of
its source partition. -/
theorem c6_counterexample :
    xgbPrepare [("2018", [⟨"A", 1, 2, 3⟩])] = [⟨0, "A", 1, 2, 3⟩] ∧
    parseYearLabel "2018" = some 2018 ∧
    (xgbPrepare [("2018", [⟨"A", 1, 2, 3⟩])]).map (fun r => (r.year : Int)) ≠ [2018] :=
  ⟨rfl, by decide, by decide⟩

theorem arimaPrepare_ok :
    ∀ (sheets : List (String × List ARow)) (recs : List Record),
      arimaPrepare sheets = .ok recs →
      (∀ s ∈ sheets, (parseYearLabel s.1).isSome) ∧
      recs = (sheets.map (fun s =>
        s.2.map (fun r => ⟨r.comune, (parseYearLabel s.1).getD 0, r.cns⟩))).flatten := by
  intro sheets
  induction sheets with
  | nil =>
    intro recs h
    have h2 : Except.ok ([] : List Record) = Except.ok recs := h
    injection h2 with h3
    subst h3
    exact ⟨by simp, rfl⟩
  | cons s rest ih =>
    obtain ⟨label, rows⟩ := s
    intro recs h
    simp only [arimaPrepare] at h
    cases hp : parseYearLabel label with
    | none =>
      rw [hp] at h
      exact Except.noConfusion (show Except.error "MalformedPartitionLabel" =
        Except.ok recs from h)
    | some y =>
      rw [hp] at h
      cases ht : arimaPrepare rest with
      | error e =>
        rw [ht] at h
        exact Except.noConfusion (show Except.error e = Except.ok recs from h)
      | ok tail =>
        rw [ht] at h
        have h2 : Except.ok (rows.map (fun r => (⟨r.comune, y, r.cns⟩ : Record)) ++ tail) =
            Except.ok recs := h
        injection h2 with h3
        subst h3
        obtain ⟨hall, htail⟩ := ih tail ht
        constructor
        · intro u hu
          rcases List.mem_cons.1 hu with rfl | hu'
          · simp [hp]
          · exact hall u hu'
        · rw [List.map_cons, List.flatten_cons, htail, hp]
          simp

theorem tagRows_append (l l' : List XRow) :
    ∀ n, tagRows n (l ++ l') = tagRows n l ++ tagRows (n + l.length) l' := by
  induction l with
  | nil => intro n; simp [tagRows]
  | cons r rs ih =>
    intro n
    have h1 : n + (r :: rs).length = (n + 1) + rs.length := by
      simp only [List.length_cons]
      omega
    calc tagRows n ((r :: rs) ++ l')
        = (⟨n / 107, r.comune, r.pm25, r.pm10, r.cns⟩ : XRecord) ::
            tagRows (n + 1) (rs ++ l') := rfl
      _ = (⟨n / 107, r.comune, r.pm25, r.pm10, r.cns⟩ : XRecord) ::
            (tagRows (n + 1) rs ++ tagRows ((n + 1) + rs.length) l') := by rw [ih (n + 1)]
      _ = tagRows n (r :: rs) ++ tagRows (n + (r :: rs).length) l' := by
            rw [h1]
            rfl

theorem tagRows_block (k : Nat) :
    ∀ (rows : List XRow) (n : Nat), (∀ j, j < rows.length → (n + j) / 107 = k) →
      tagRows n rows = blockTag k rows := by
  intro rows
  induction rows with
  | nil => intro n _; rfl
  | cons r rs ih =>
    intro n hj
    have h0 : n / 107 = k := by
      have h := hj 0 (by simp)
      simpa using h
    have hrec : tagRows (n + 1) rs = blockTag k rs := by
      refine ih (n + 1) (fun j hjl => ?_)
      have h := hj (j + 1) (by simp only [List.length_cons]; omega)
      have he : n + 1 + j = n + (j + 1) := by omega
      rw [he]
      exact h
    show (⟨n / 107, r.comune, r.pm25, r.pm10, r.cns⟩ : XRecord) :: tagRows (n + 1) rs =
      (⟨k, r.comune, r.pm25, r.pm10, r.cns⟩ : XRecord) :: blockTag k rs
    rw [h0, hrec]

theorem tagRows_blocksFrom :
    ∀ (ls : List (List XRow)) (k : Nat), (∀ rows ∈ ls, rows.length = 107) →
      tagRows (107 * k) ls.flatten = blocksFrom k ls := by
  intro ls
  induction ls with
  | nil => intro k _; rfl
  | cons rows rest ih =>
    intro k hall
    rw [List.flatten_cons, tagRows_append]
    have hlen : rows.length = 107 := hall rows (List.mem_cons_self _ _)
    have h1 : tagRows (107 * k) rows = blockTag k rows := by
      refine tagRows_block k rows (107 * k) (fun j hjl => ?_)
      have : j < 107 := hlen ▸ hjl
      omega
    have h2 : 107 * k + rows.length = 107 * (k + 1) := by rw [hlen]; ring
    rw [h1, h2, ih (k + 1) (fun r hr => hall r (List.mem_cons_of_mem _ hr))]
    rfl

/-- C6 amended: in the time-series variant every record's year is the
integer parsed from its source sheet's label.  In the tabular variant the
year field is the global row position divided by 107; it never consults the
sheet labels, and it identifies the source partition only by its 0-based
ordinal, and only under the fixed layout in which every sheet has exactly
107 rows. -/
theorem c6_amended :
    (∀ (sheets : List (String × List ARow)) (recs : List Record),
      arimaPrepare sheets = .ok recs →
      recs = (sheets.map (fun s =>
        s.2.map (fun r => ⟨r.comune, (parseYearLabel s.1).getD 0, r.cns⟩))).flatten) ∧
    (∀ sheets : List (String × List XRow),
      (∀ s ∈ sheets, s.2.length = 107) →
      xgbPrepare sheets = blocksFrom 0 (sheets.map Prod.snd)) := by
  constructor
  · intro sheets recs h
    exact (arimaPrepare_ok sheets recs h).2
  · intro sheets hall
    simp only [xgbPrepare]
    rw [show (0 : Nat) = 107 * 0 from rfl]
    refine tagRows_blocksFrom (sheets.map Prod.snd) 0 (fun rows hr => ?_)
    obtain ⟨s, hs, rfl⟩ := List.mem_map.1 hr
    exact hall s hs

/-- Witness for c6_amended: a one-sheet time-series workbook and a one-sheet
107-row tabular workbook. -/
theorem c6_amended_witness :
    (arimaPrepare [("2018", [⟨"A", 1⟩])] = .ok [⟨"A", 2018, 1⟩]) ∧
    (([⟨"A", 2018, 1⟩] : List Record) =
      ([("2018", [(⟨"A", 1⟩ : ARow)])].map (fun s =>
        s.2.map (fun r => (⟨r.comune, (parseYearLabel s.1).getD 0, r.cns⟩ : Record)))).flatten) ∧
    ((List.replicate 107 (⟨"A", 1, 2, 3⟩ : XRow)).length = 107) ∧
    (xgbPrepare [("2018", List.replicate 107 ⟨"A", 1, 2, 3⟩)] =
      blocksFrom 0 ([("2018", List.replicate 107 (⟨"A", 1, 2, 3⟩ : XRow))].map Prod.snd)) :=
  ⟨rfl, c6_amended.1 _ _ rfl, by simp,
    c6_amended.2 [("2018", List.replicate 107 ⟨"A", 1, 2, 3⟩)] (by simp)⟩

theorem leTransform_isSome_of_mem : ∀ (classes : List String) (v : String), v ∈ classes →
    ∃ i, leTransform classes v = some i := by
  intro classes
  induction classes with
  | nil => intro v hv; exact absurd hv (List.not_mem_nil v)
  | cons c cs ih =>
    intro v hv
    by_cases hc : c == v
    · exact ⟨0, by simp only [leTransform, if_pos hc]⟩
    · have hv' : v ∈ cs := by
        rcases List.mem_cons.1 hv with rfl | hv'
        · exact absurd (by simp) hc
        · exact hv'
      obtain ⟨i, hi⟩ := ih v hv'
      refine ⟨i + 1, ?_⟩
      simp only [leTransform, if_neg hc, hi]
      rfl

theorem leTransform_inj : ∀ (classes : List String) (v w : String) (i : Nat),
    leTransform classes v = some i → leTransform classes w = some i → v = w := by
  intro classes
  induction classes with
  | nil =>
    intro v w i hv
    exact Option.noConfusion (show (none : Option Nat) = some i from hv)
  | cons c cs ih =>
    intro v w i hv hw
    simp only [leTransform] at hv hw
    by_cases hcv : c == v
    · rw [if_pos hcv] at hv
      by_cases hcw : c == w
      · have h1 : c = v := by simpa using hcv
        have h2 : c = w := by simpa using hcw
        rw [← h1, ← h2]
      · rw [if_neg hcw] at hw
        injection hv with hv0
        cases hj : leTransform cs w with
        | none =>
          rw [hj] at hw
          exact Option.noConfusion (show (none : Option Nat) = some i from hw)
        | some j =>
          rw [hj] at hw
          have hw1 : some (j + 1) = some i := hw
          injection hw1 with hw0
          omega
    · rw [if_neg hcv] at hv
      by_cases hcw : c == w
      · rw [if_pos hcw] at hw
        injection hw with hw0
        cases hj : leTransform cs v with
        | none =>
          rw [hj] at hv
          exact Option.noConfusion (show (none : Option Nat) = some i from hv)
        | some j =>
          rw [hj] at hv
          have hv1 : some (j + 1) = some i := hv
          injection hv1 with hv0
          omega
      · rw [if_neg hcw] at hw
        cases hjv : leTransform cs v with
        | none =>
          rw [hjv] at hv
          exact Option.noConfusion (show (none : Option Nat) = some i from hv)
        | some jv =>
          cases hjw : leTransform cs w with
          | none =>
            rw [hjw] at hw
            exact Option.noConfusion (show (none : Option Nat) = some i from hw)
          | some jw =>
            rw [hjv] at hv
            rw [hjw] at hw
            have hv1 : some (jv + 1) = some i := hv
            have hw1 : some (jw + 1) = some i := hw
            injection hv1 with hv0
            injection hw1 with hw0
            have hjj : jv = jw := by omega
            exact ih v w jv hjv (hjj ▸ hjw)

theorem mem_leFit {v : String} {vals : List String} : v ∈ leFit vals ↔ v ∈ vals := by
  rw [leFit]
  rw [(List.perm_insertionSort _ (uniqueFirst vals)).mem_iff]
  exact mem_uniqueFirst

/-- C7: the entity-label encoding of the tabular pipeline is fit once on
the full entity vocabulary of the assembled dataset, before the split.
Every record's entity (in particular every test-slice entity, year == 10)
has a code; the code stored in the encoded dataset equals the code that
transforming the same identifier again later yields (stability); and equal
codes come only from equal identifiers, so the mapping is unambiguous. -/
theorem c7_label_encoding :
    ∀ sheets : List (String × List XRow),
      (∀ r ∈ xgbPrepare sheets,
        ∃ i, leTransform (leFit ((xgbPrepare sheets).map (fun r => r.comune))) r.comune
            = some i ∧
          (⟨r.year, i, r.pm25, r.pm10, r.cns⟩ : XRecordE) ∈ xgbEncode (xgbPrepare sheets)) ∧
      (∀ r ∈ (xgbPrepare sheets).filter (fun r => r.year == 10),
        ∃ i, leTransform (leFit ((xgbPrepare sheets).map (fun r => r.comune))) r.comune
          = some i) ∧
      (∀ v w i, leTransform (leFit ((xgbPrepare sheets).map (fun r => r.comune))) v = some i →
        leTransform (leFit ((xgbPrepare sheets).map (fun r => r.comune))) w = some i →
        v = w) := by
  intro sheets
  refine ⟨?_, ?_, fun v w i hv hw => leTransform_inj _ v w i hv hw⟩
  · intro r hr
    have hmem : r.comune ∈ leFit ((xgbPrepare sheets).map (fun r => r.comune)) :=
      mem_leFit.2 (List.mem_map_of_mem (fun r => r.comune) hr)
    obtain ⟨i, hi⟩ := leTransform_isSome_of_mem _ _ hmem
    refine ⟨i, hi, ?_⟩
    have himg := List.mem_map_of_mem
      (fun r : XRecord => (⟨r.year,
        (leTransform (leFit ((xgbPrepare sheets).map (fun r => r.comune))) r.comune).getD 0,
        r.pm25, r.pm10, r.cns⟩ : XRecordE)) hr
    have himg2 : (⟨r.year,
        (leTransform (leFit ((xgbPrepare sheets).map (fun r => r.comune))) r.comune).getD 0,
        r.pm25, r.pm10, r.cns⟩ : XRecordE) ∈ xgbEncode (xgbPrepare sheets) := himg
    rw [hi] at himg2
    exact himg2
  · intro r hr
    have hrd : r ∈ xgbPrepare sheets := (List.mem_filter.1 hr).1
    exact leTransform_isSome_of_mem _ _
      (mem_leFit.2 (List.mem_map_of_mem (fun r => r.comune) hrd))

/-- Witness for c7_label_encoding at a concrete one-row workbook. -/
theorem c7_label_encoding_witness :
    ((⟨0, "A", 1, 2, 3⟩ : XRecord) ∈ xgbPrepare [("0", [⟨"A", 1, 2, 3⟩])]) ∧
    (∃ i, leTransform (leFit ((xgbPrepare [("0", [⟨"A", 1, 2, 3⟩])]).map (fun r => r.comune)))
        (⟨0, "A", 1, 2, 3⟩ : XRecord).comune = some i ∧
      (⟨(⟨0, "A", 1, 2, 3⟩ : XRecord).year, i, (⟨0, "A", 1, 2, 3⟩ : XRecord).pm25,
        (⟨0, "A", 1, 2, 3⟩ : XRecord).pm10, (⟨0, "A", 1, 2, 3⟩ : XRecord).cns⟩ : XRecordE) ∈
        xgbEncode (xgbPrepare [("0", [⟨"A", 1, 2, 3⟩])])) :=
  ⟨by decide, (c7_label_encoding [("0", [⟨"A", 1, 2, 3⟩])]).1 _ (by decide)⟩

theorem map_zip_self (f : ℚ × ℚ → ℚ) (h : ∀ a, f (a, a) = 0) :
    ∀ y : List ℚ, (y.zip y).map f = y.map (fun _ => 0) := by
  intro y
  induction y with
  | nil => rfl
  | cons a as ih => simp [List.zip_cons_cons, h, ih]

theorem sum_map_zero (y : List ℚ) : (y.map (fun _ => (0 : ℚ))).sum = 0 := by
  induction y with
  | nil => rfl
  | cons a as ih => simp [ih]

theorem listMean_zero (y : List ℚ) : listMean (y.map (fun _ => 0)) = 0 := by
  simp [listMean, sum_map_zero]

theorem listVariance_zero (y : List ℚ) : listVariance (y.map (fun _ => 0)) = 0 := by
  simp only [listVariance, listMean_zero, List.map_map]
  have h : ((fun a => (a - 0) ^ 2) ∘ fun _ => (0 : ℚ)) = fun _ : ℚ => (0 : ℚ) := by
    funext a
    simp
  rw [h, listMean_zero]

theorem getD_zero_of_all_zero : ∀ (l : List ℚ), (∀ x ∈ l, x = 0) → ∀ i : Nat,
    l.getD i 0 = 0 := by
  intro l
  induction l with
  | nil =>
    intro _ i
    cases i <;> rfl
  | cons a as ih =>
    intro h i
    cases i with
    | zero => exact h a (List.mem_cons_self _ _)
    | succ j => exact ih (fun x hx => h x (List.mem_cons_of_mem _ hx)) j

theorem listMedian_zero (y : List ℚ) : listMedian (y.map (fun _ => 0)) = 0 := by
  have hall : ∀ x ∈ (y.map (fun _ => (0 : ℚ))).insertionSort (· ≤ ·), x = 0 := by
    intro x hx
    have hx2 := (List.perm_insertionSort (· ≤ ·) (y.map (fun _ => (0 : ℚ)))).mem_iff.1 hx
    obtain ⟨a, _, ha⟩ := List.mem_map.1 hx2
    exact ha.symm
  simp only [listMedian]
  split
  · exact getD_zero_of_all_zero _ hall _
  · rw [getD_zero_of_all_zero _ hall, getD_zero_of_all_zero _ hall]
    norm_num

/-- C8: on a perfect prediction pair (y, y) with y non-empty, the metric
battery evaluates exactly to mse 0, rmse 0, r2 1, explained variance 1,
mae 0 and median absolute error 0. -/
theorem c8_perfect_prediction :
    ∀ y : List ℚ, y ≠ [] →
      mean_squared_error y y = 0 ∧
      Real.sqrt ((mean_squared_error y y : ℚ) : ℝ) = 0 ∧
      r2_score y y = 1 ∧
      explained_variance_score y y = 1 ∧
      mean_absolute_error y y = 0 ∧
      median_absolute_error y y = 0 := by
  intro y _hy
  have hsq : squaredErrors y y = y.map (fun _ => 0) := map_zip_self _ (fun a => by simp) y
  have habs : absErrors y y = y.map (fun _ => 0) := map_zip_self _ (fun a => by simp) y
  have hres : residuals y y = y.map (fun _ => 0) := map_zip_self _ (fun a => by simp) y
  have hmse : mean_squared_error y y = 0 := by
    rw [mean_squared_error, hsq, listMean_zero]
  refine ⟨hmse, ?_, ?_, ?_, ?_, ?_⟩
  · rw [hmse]
    simp
  · have h0 : (squaredErrors y y).sum = 0 := by rw [hsq]; exact sum_map_zero y
    simp only [r2_score, h0]
    split <;> simp
  · have h0 : listVariance (residuals y y) = 0 := by rw [hres]; exact listVariance_zero y
    simp only [explained_variance_score, h0]
    split <;> simp
  · rw [mean_absolute_error, habs, listMean_zero]
  · rw [median_absolute_error, habs, listMedian_zero]

/-- Witness for c8_perfect_prediction at y = [3]. -/
theorem c8_perfect_prediction_witness :
    ([3] : List ℚ) ≠ [] ∧
    (mean_squared_error [3] [3] = 0 ∧
      Real.sqrt ((mean_squared_error [3] [3] : ℚ) : ℝ) = 0 ∧
      r2_score [3] [3] = 1 ∧
      explained_variance_score [3] [3] = 1 ∧
      mean_absolute_error [3] [3] = 0 ∧
      median_absolute_error [3] [3] = 0) :=
  ⟨by decide, c8_perfect_prediction [3] (by decide)⟩

theorem zip_unzip_map (f : ℚ × ℚ → ℚ) (l : List (ℚ × ℚ)) :
    ((l.map Prod.fst).zip (l.map Prod.snd)).map f = l.map f := by
  rw [List.zip_map']
  simp

/-- C9: the six-metric battery is invariant under a simultaneous identical
permutation of the true and predicted sequences. -/
theorem c9_permutation_invariance :
    ∀ l l' : List (ℚ × ℚ), l.Perm l' →
      mean_squared_error (l.map Prod.fst) (l.map Prod.snd) =
        mean_squared_error (l'.map Prod.fst) (l'.map Prod.snd) ∧
      Real.sqrt ((mean_squared_error (l.map Prod.fst) (l.map Prod.snd) : ℚ) : ℝ) =
        Real.sqrt ((mean_squared_error (l'.map Prod.fst) (l'.map Prod.snd) : ℚ) : ℝ) ∧
      r2_score (l.map Prod.fst) (l.map Prod.snd) =
        r2_score (l'.map Prod.fst) (l'.map Prod.snd) ∧
      explained_variance_score (l.map Prod.fst) (l.map Prod.snd) =
        explained_variance_score (l'.map Prod.fst) (l'.map Prod.snd) ∧
      mean_absolute_error (l.map Prod.fst) (l.map Prod.snd) =
        mean_absolute_error (l'.map Prod.fst) (l'.map Prod.snd) ∧
      median_absolute_error (l.map Prod.fst) (l.map Prod.snd) =
        median_absolute_error (l'.map Prod.fst) (l'.map Prod.snd) := by
  intro l l' hperm
  have hlen := hperm.length_eq
  have hsum : ∀ f : ℚ × ℚ → ℚ, (l.map f).sum = (l'.map f).sum :=
    fun f => (hperm.map f).sum_eq
  have hmean : ∀ f : ℚ × ℚ → ℚ, listMean (l.map f) = listMean (l'.map f) := by
    intro f
    simp only [listMean, hsum f, List.length_map, hlen]
  have hvar : ∀ f : ℚ × ℚ → ℚ, listVariance (l.map f) = listVariance (l'.map f) := by
    intro f
    simp only [listVariance, List.map_map, hmean f]
    exact hmean _
  have hsort : ∀ f : ℚ × ℚ → ℚ,
      (l.map f).insertionSort (· ≤ ·) = (l'.map f).insertionSort (· ≤ ·) := by
    intro f
    exact List.eq_of_perm_of_sorted
      ((List.perm_insertionSort _ _).trans ((hperm.map f).trans
        (List.perm_insertionSort _ _).symm))
      (List.sorted_insertionSort _ _) (List.sorted_insertionSort _ _)
  have hsqE : ∀ m : List (ℚ × ℚ), squaredErrors (m.map Prod.fst) (m.map Prod.snd) =
      m.map (fun p => (p.1 - p.2) ^ 2) := fun m => zip_unzip_map _ m
  have habsE : ∀ m : List (ℚ × ℚ), absErrors (m.map Prod.fst) (m.map Prod.snd) =
      m.map (fun p => |p.1 - p.2|) := fun m => zip_unzip_map _ m
  have hresE : ∀ m : List (ℚ × ℚ), residuals (m.map Prod.fst) (m.map Prod.snd) =
      m.map (fun p => p.1 - p.2) := fun m => zip_unzip_map _ m
  have hmse : mean_squared_error (l.map Prod.fst) (l.map Prod.snd) =
      mean_squared_error (l'.map Prod.fst) (l'.map Prod.snd) := by
    simp only [mean_squared_error, hsqE]
    exact hmean _
  refine ⟨hmse, by rw [hmse], ?_, ?_, ?_, ?_⟩
  · simp only [r2_score, hsqE, List.map_map, hmean Prod.fst, hsum]
  · simp only [explained_variance_score, hresE, hvar Prod.fst, hvar (fun p => p.1 - p.2)]
  · simp only [mean_absolute_error, habsE]
    exact hmean _
  · simp only [median_absolute_error, habsE, listMedian,
      hsort (fun p => |p.1 - p.2|), List.length_map, hlen]

/-- Witness for c9_permutation_invariance at a concrete transposition. -/
theorem c9_permutation_invariance_witness :
    ([((1 : ℚ), (2 : ℚ)), ((3 : ℚ), (5 : ℚ))] : List (ℚ × ℚ)).Perm
      [((3 : ℚ), (5 : ℚ)), ((1 : ℚ), (2 : ℚ))] ∧
    mean_squared_error ([((1 : ℚ), (2 : ℚ)), ((3 : ℚ), (5 : ℚ))].map Prod.fst)
        ([((1 : ℚ), (2 : ℚ)), ((3 : ℚ), (5 : ℚ))].map Prod.snd) =
      mean_squared_error ([((3 : ℚ), (5 : ℚ)), ((1 : ℚ), (2 : ℚ))].map Prod.fst)
        ([((3 : ℚ), (5 : ℚ)), ((1 : ℚ), (2 : ℚ))].map Prod.snd) :=
  ⟨List.Perm.swap _ _ _,
    (c9_permutation_invariance _ _ (List.Perm.swap _ _ _)).1⟩

end CNS
